import Mathlib

/-! # react-projects: `List.jsx` and `MyComponent.jsx`

A shallow embedding of the two React function components of the repository.

* A component is a function from its inputs to the element tree it returns.
* A JavaScript exception is an `Except.error`.
* The `useState` cells of `MyComponent` are an explicit record; a setter is a
  function on that record, and a handler created by a render is the setter
  applied to the values that render read from the cells.
* A JavaScript number is held by its integer value. `calories` is only passed
  through. `age` is the one number the code computes with: `age + 2` is the
  addition of binary64 doubles, the exact sum rounded to a 53-bit significand,
  ties to even (`jsAdd`).
-/

/-! ## `src/List.jsx` -/

namespace ListJsx

/-- An exception thrown by the JavaScript runtime. -/
inductive JsError where
  /-- The `TypeError` of reading a property (`map`) of `undefined`. -/
  | typeError
  deriving DecidableEq, Repr

/-- One entry of `props.items`: the fields the component reads. The type `κ`
of `id` is left open, the component only hands it to React as the key. -/
structure Item (κ : Type) where
  id : κ
  name : String
  calories : Int
  deriving DecidableEq, Repr

/-- The props object. `items` is `none` when the caller did not supply
`props.items` (reading it gives `undefined`). -/
structure Props (κ : Type) where
  items : Option (List (Item κ))
  category : String

/-- The element tree a render returns. `text` and `num` are string and number
children, `elem` is a host element with its `key`, its `className` and its
children, `fragment` is `<>...</>`. -/
inductive Element (κ : Type) where
  | text (s : String)
  | num (n : Int)
  | elem (tag : String) (key : Option κ) (className : Option String)
      (children : List (Element κ))
  | fragment (children : List (Element κ))

/-- The arrow function given to `itemList.map` (lines 5-9):
`<li key={item.id}>{item.name} : &nbsp; <b>{item.calories}</b></li>`.
The JSX text between `{item.name}` and `<b>` is on one line, so it is kept with
its blanks; `&nbsp;` is U+00A0. The line breaks after `<li ...>` and before
`</li>` are dropped by JSX. -/
def listItem {κ : Type} (item : Item κ) : Element κ :=
  .elem "li" (some item.id) none
    [.text item.name, .text " : \u00a0 ", .elem "b" none none [.num item.calories]]

/-- The component `List(props)`. `itemList.map` throws a `TypeError` when
`props.items` is `undefined`; otherwise the fragment of the `h3` heading and the
`ol` holding the mapped array is returned. -/
def List {κ : Type} (props : Props κ) : Except JsError (Element κ) :=
  let itemList := props.items
  let category := props.category
  match itemList with
  | none => .error .typeError
  | some itemList =>
    let listItems := itemList.map listItem
    .ok (.fragment
      [.elem "h3" none (some "list-category") [.text category],
       .elem "ol" none (some "list-items") listItems])

end ListJsx

/-! ## `src/MyComponent.jsx` -/

namespace MyComponentJsx

/-- Rounding of a natural number to the nearest number with a significand of 53
bits, a tie going to the even significand: the binary64 rounding of a magnitude.
`e` counts the low bits that do not fit (none below `2 ^ 53`), `ulp` is the gap
between neighbouring doubles at that size. -/
def roundNat53 (n : Nat) : Nat :=
  let e := Nat.log2 n - 52
  let ulp := 2 ^ e
  let q := n / ulp
  let r := n % ulp
  if 2 * r < ulp then q * ulp
  else if ulp < 2 * r then (q + 1) * ulp
  else if q % 2 = 0 then q * ulp
  else (q + 1) * ulp

/-- Rounding of an integer to the nearest double; the rounding is symmetric in
the sign. Magnitudes from `2 ^ 1024` on, which a double gives as `Infinity`, are
not told apart: adding 2 to a finite double never gets there. -/
def roundToDouble (x : Int) : Int :=
  if 0 ≤ x then (roundNat53 x.toNat : Int) else -(roundNat53 (-x).toNat : Int)

/-- The JavaScript `a + b` on integer-valued numbers: the exact sum, rounded to
the nearest double. -/
def jsAdd (a b : Int) : Int := roundToDouble (a + b)

/-- The four `useState` cells of one component instance, in hook order. `age`
is the integer value of the stored number. -/
structure State where
  name : String
  age : Int
  isEmployed : Bool
  typing : String
  deriving DecidableEq, Repr

/-- The part of a DOM change event the component reads: `event.target.value`. -/
structure Target where
  value : String
  deriving DecidableEq, Repr

/-- A DOM change event. -/
structure Event where
  target : Target
  deriving DecidableEq, Repr

/-- `useState(init)` as seen by the render: the mounting render has no stored
cell and reads `init`, every later render reads the stored value. -/
def useState {α : Type} (stored : Option α) (init : α) : α :=
  match stored with
  | some v => v
  | none => init

/-- The setter of the first cell: replaces `name`. -/
def setName (v : String) (cells : State) : State := { cells with name := v }

/-- The setter of the second cell: replaces `age`. -/
def setAge (v : Int) (cells : State) : State := { cells with age := v }

/-- The setter of the third cell: replaces `isEmployed`. -/
def setIsEmployed (v : Bool) (cells : State) : State := { cells with isEmployed := v }

/-- The setter of the fourth cell: replaces `typing`. -/
def setTyping (v : String) (cells : State) : State := { cells with typing := v }

/-- Lines 9-11: `() => { setName("Entue"); }`. -/
def updateName : State → State := setName "Entue"

/-- Lines 13-15: `() => { setAge(age + 2); }`, with `age` the value read by the
render that created the handler. -/
def incrementAge (age : Int) : State → State := setAge (jsAdd age 2)

/-- Lines 17-19: `() => { setIsEmployed(!isEmployed); }`, with `isEmployed` the
value read by the render that created the handler. -/
def toggleEmployedStatus (isEmployed : Bool) : State → State := setIsEmployed (!isEmployed)

/-- Lines 21-23: `function handleTypeChanging(event) { setTyping(event.target.value); }`. -/
def handleTypeChanging (event : Event) : State → State := setTyping event.target.value

/-- The handlers a render attaches to the returned elements. -/
inductive Handler where
  | updateName
  | incrementAge
  | toggleEmployedStatus
  | handleTypeChanging
  deriving DecidableEq, Repr

/-- The returned element tree (lines 25-39). -/
inductive Element where
  | text (s : String)
  | num (n : Int)
  | p (children : List Element)
  | button (onClick : Handler) (children : List Element)
  | input (value : String) (onChange : Handler)
  | div (children : List Element)

/-- What one call of `MyComponent()` produces: the values it read from the
cells, the handlers it created (each a function on the stored cells), and the
returned elements. -/
structure Rendered where
  cells : State
  updateName : State → State
  incrementAge : State → State
  toggleEmployedStatus : State → State
  handleTypeChanging : Event → State → State
  view : Element

/-- The component `MyComponent()`. `stored` is `none` for the mounting render
and holds the cells for every later render. -/
def MyComponent (stored : Option State) : Rendered :=
  let name := useState (stored.map (·.name)) "Guest"
  let age := useState (stored.map (·.age)) 0
  let isEmployed := useState (stored.map (·.isEmployed)) false
  let typing := useState (stored.map (·.typing)) ""
  { cells := { name := name, age := age, isEmployed := isEmployed, typing := typing }
    updateName := updateName
    incrementAge := incrementAge age
    toggleEmployedStatus := toggleEmployedStatus isEmployed
    handleTypeChanging := handleTypeChanging
    view := .div
      [.p [.text "Name: ", .text name],
       .button .updateName [.text "Set Name"],
       .input typing .handleTypeChanging,
       .p [.text "Typing: ", .text typing],
       .p [.text "Age: ", .num age],
       .button .incrementAge [.text "Increment Age"],
       .p [.text "Is employed: ", .text (if isEmployed then "Yes" else "No")],
       .button .toggleEmployedStatus [.text "Toggle Status"]] }

/-- The cells right after mounting. -/
def initialState : State := (MyComponent none).cells

/-- One dispatched event: the handler of the render of the current cells runs on
those cells; the component is rendered again before the next event. -/
def invoke (handler : Rendered → State → State) (cells : State) : State :=
  handler (MyComponent (some cells)) cells

/-- The handler `incrementAge` of one render invoked twice with no render in
between: both calls see the `age` of that render. -/
def incrementAgeTwiceSameRender (cells : State) : State :=
  let r := MyComponent (some cells)
  r.incrementAge (r.incrementAge cells)

/-- The handler `toggleEmployedStatus` of one render invoked twice with no
render in between. -/
def toggleTwiceSameRender (cells : State) : State :=
  let r := MyComponent (some cells)
  r.toggleEmployedStatus (r.toggleEmployedStatus cells)

/-- Typing events delivered one after the other, a render between each. -/
def typeAll (events : List Event) (cells : State) : State :=
  events.foldl (fun st ev => invoke (fun r => r.handleTypeChanging ev) st) cells

end MyComponentJsx

/-! ## Shared lemmas -/

namespace MyComponentJsx

lemma log2_sub_of_lt {n : Nat} (h : n < 2 ^ 53) : Nat.log2 n - 52 = 0 := by
  rcases Nat.eq_zero_or_pos n with h0 | h0
  · subst h0
    simp [Nat.log2]
  · have := (Nat.log2_lt (Nat.pos_iff_ne_zero.mp h0) (k := 53)).2 h
    omega

lemma log2_sub_of_range {n : Nat} (e : Nat) (h1 : 2 ^ (52 + e) ≤ n)
    (h2 : n < 2 ^ (53 + e)) : Nat.log2 n - 52 = e := by
  have hn : n ≠ 0 := by
    have : 0 < 2 ^ (52 + e) := Nat.two_pow_pos _
    omega
  have a := (Nat.log2_lt hn (k := 53 + e)).2 h2
  have b := (Nat.le_log2 hn (k := 52 + e)).2 h1
  omega

lemma roundNat53_of_lt {n : Nat} (h : n < 2 ^ 53) : roundNat53 n = n := by
  simp [roundNat53, log2_sub_of_lt h, Nat.mod_one]

lemma roundNat53_of_even {n : Nat} (h1 : 2 ^ 53 ≤ n) (h2 : n < 2 ^ 54) (h : n % 2 = 0) :
    roundNat53 n = n := by
  have he : Nat.log2 n - 52 = 1 := log2_sub_of_range 1 h1 h2
  simp only [roundNat53, he, pow_one, h, Nat.mul_zero]
  simp
  omega

lemma roundNat53_pow54 : roundNat53 (2 ^ 54) = 2 ^ 54 := by
  have he : Nat.log2 (2 ^ 54) - 52 = 2 := log2_sub_of_range 2 (by norm_num) (by norm_num)
  simp only [roundNat53, he]
  norm_num

lemma roundNat53_pow54_add_two : roundNat53 (2 ^ 54 + 2) = 2 ^ 54 := by
  have he : Nat.log2 (2 ^ 54 + 2) - 52 = 2 :=
    log2_sub_of_range 2 (by norm_num) (by norm_num)
  simp only [roundNat53, he]
  norm_num

/-- Even numbers up to `2 ^ 54` are doubles. -/
lemma roundNat53_of_even_le {n : Nat} (h2 : n ≤ 2 ^ 54) (h : n % 2 = 0) :
    roundNat53 n = n := by
  rcases Nat.lt_or_ge n (2 ^ 53) with h1 | h1
  · exact roundNat53_of_lt h1
  · rcases Nat.lt_or_ge n (2 ^ 54) with h3 | h3
    · exact roundNat53_of_even h1 h3 h
    · have : n = 2 ^ 54 := le_antisymm h2 h3
      rw [this]
      exact roundNat53_pow54

/-- Every number up to `2 ^ 53` is a double. -/
lemma roundNat53_of_le {n : Nat} (h : n ≤ 2 ^ 53) : roundNat53 n = n := by
  rcases Nat.lt_or_ge n (2 ^ 53) with h1 | h1
  · exact roundNat53_of_lt h1
  · have : n = 2 ^ 53 := le_antisymm h h1
    rw [this]
    exact roundNat53_of_even (le_refl _) (by norm_num) (by norm_num)

lemma roundToDouble_natCast (n : Nat) : roundToDouble (n : Int) = (roundNat53 n : Int) := by
  simp [roundToDouble]

/-- Integers of magnitude at most `2 ^ 53` are doubles. -/
lemma roundToDouble_of_safe {x : Int} (h1 : -2 ^ 53 ≤ x) (h2 : x ≤ 2 ^ 53) :
    roundToDouble x = x := by
  unfold roundToDouble
  split_ifs with h
  · have hx : x.toNat ≤ 2 ^ 53 := by omega
    rw [roundNat53_of_le hx]
    omega
  · have hx : (-x).toNat ≤ 2 ^ 53 := by omega
    rw [roundNat53_of_le hx]
    omega

lemma invoke_incrementAge (cells : State) :
    invoke Rendered.incrementAge cells = { cells with age := jsAdd cells.age 2 } := rfl

lemma invoke_toggleEmployedStatus (cells : State) :
    invoke Rendered.toggleEmployedStatus cells =
      { cells with isEmployed := !cells.isEmployed } := rfl

lemma invoke_updateName (cells : State) :
    invoke Rendered.updateName cells = { cells with name := "Entue" } := rfl

lemma invoke_handleTypeChanging (event : Event) (cells : State) :
    invoke (fun r => r.handleTypeChanging event) cells =
      { cells with typing := event.target.value } := rfl

/-- While `2 * k` is at most `2 ^ 54` every sum is exact. -/
lemma iterate_incrementAge_exact (cells : State) (h0 : cells.age = 0) (k : Nat)
    (hk : k ≤ 2 ^ 53) :
    ((invoke Rendered.incrementAge)^[k] cells).age = 2 * (k : Int) := by
  induction k with
  | zero => simpa using h0
  | succ n ih =>
    rw [Function.iterate_succ_apply', invoke_incrementAge]
    have hn : n ≤ 2 ^ 53 := by omega
    simp only [ih hn, jsAdd]
    have hcast : (2 * (n : Int) + 2) = ((2 * n + 2 : Nat) : Int) := by push_cast; ring
    rw [hcast, roundToDouble_natCast, roundNat53_of_even_le (by omega) (by omega)]
    push_cast
    ring

/-- From `2 ^ 54` on, `age + 2` rounds back to `2 ^ 54`. -/
lemma iterate_incrementAge_saturated (cells : State) (h0 : cells.age = 0) (j : Nat) :
    ((invoke Rendered.incrementAge)^[2 ^ 53 + j] cells).age = 2 ^ 54 := by
  induction j with
  | zero =>
    rw [Nat.add_zero, iterate_incrementAge_exact cells h0 (2 ^ 53) (le_refl _)]
    norm_num
  | succ n ih =>
    rw [← Nat.add_assoc, Function.iterate_succ_apply', invoke_incrementAge]
    simp only [ih, jsAdd]
    have hcast : ((2 : Int) ^ 54 + 2) = ((2 ^ 54 + 2 : Nat) : Int) := by push_cast
    rw [hcast, roundToDouble_natCast, roundNat53_pow54_add_two]
    norm_num

lemma iterate_toggle_isEmployed (k : Nat) (cells : State) :
    ((invoke Rendered.toggleEmployedStatus)^[k] cells).isEmployed =
      xor cells.isEmployed (decide (k % 2 = 1)) := by
  induction k with
  | zero => simp
  | succ n ih =>
    rw [Function.iterate_succ_apply', invoke_toggleEmployedStatus]
    simp only [ih]
    rcases Nat.mod_two_eq_zero_or_one n with h | h
    · have h2 : (n + 1) % 2 = 1 := by omega
      simp [h, h2]
    · have h2 : (n + 1) % 2 = 0 := by omega
      simp [h, h2]

lemma iterate_updateName (n : Nat) (cells : State) :
    (invoke Rendered.updateName)^[n + 1] cells = invoke Rendered.updateName cells := by
  induction n with
  | zero => rfl
  | succ m ih =>
    rw [Function.iterate_succ_apply', ih]
    rfl

lemma typeAll_append_singleton (events : List Event) (event : Event) (cells : State) :
    typeAll (events ++ [event]) cells =
      { typeAll events cells with typing := event.target.value } := by
  simp [typeAll, List.foldl_append, invoke_handleTypeChanging]

end MyComponentJsx

/-! ## `List.jsx`: the rendered list -/

/-- C1: for every sequence of items, `List` returns the heading followed by an
ordered list whose entries are as many as the items, and whose `i`-th entry is
the `li` keyed by the `i`-th item's `id` that shows the item's `name`, the
separator and the item's `calories` inside `b` (past the last item there is no
entry). -/
theorem List_entries_follow_items {κ : Type} (category : String)
    (items : List (ListJsx.Item κ)) :
    ∃ entries : List (ListJsx.Element κ),
      ListJsx.List { items := some items, category := category } =
        .ok (.fragment
          [.elem "h3" none (some "list-category") [.text category],
           .elem "ol" none (some "list-items") entries]) ∧
      entries.length = items.length ∧
      ∀ i : Nat, entries[i]? = items[i]?.map (fun item =>
        .elem "li" (some item.id) none
          [.text item.name, .text " : \u00a0 ", .elem "b" none none [.num item.calories]]) := by
  refine ⟨items.map ListJsx.listItem, rfl, by simp, ?_⟩
  intro i
  rw [List.getElem?_map]
  rfl

/-- C2, as stated, fails: when `props.items` is not supplied, `List` throws a
`TypeError` and returns no rendering at all. -/
theorem List_absent_items_throws :
    ListJsx.List (κ := Nat) { items := none, category := "Fruits" } = .error .typeError ∧
    ¬ ∃ e, ListJsx.List (κ := Nat) { items := none, category := "Fruits" } = .ok e := by
  refine ⟨rfl, ?_⟩
  rintro ⟨e, h⟩
  cases h

/-- C2, amended: for every category, an empty `props.items` renders the heading
followed by an ordered list with no entries, and an absent `props.items` makes
`List` throw a `TypeError`. -/
theorem List_empty_renders_absent_throws {κ : Type} (category : String) :
    ListJsx.List (κ := κ) { items := some [], category := category } =
        .ok (.fragment
          [.elem "h3" none (some "list-category") [.text category],
           .elem "ol" none (some "list-items") []]) ∧
    ListJsx.List (κ := κ) { items := none, category := category } = .error .typeError :=
  ⟨rfl, rfl⟩

/-- C9: for every category string and every items sequence, the first child of
the returned fragment is the `h3` whose only child is the category string
itself, and the second and last child is the `ol`. -/
theorem List_heading_is_category {κ : Type} (category : String)
    (items : List (ListJsx.Item κ)) :
    (∃ entries : List (ListJsx.Element κ),
      ListJsx.List { items := some items, category := category } =
        .ok (.fragment
          [.elem "h3" none (some "list-category") [.text category],
           .elem "ol" none (some "list-items") entries])) ∧
    ∃ entries : List (ListJsx.Element κ),
      ListJsx.List { items := some items, category := "" } =
        .ok (.fragment
          [.elem "h3" none (some "list-category") [.text ""],
           .elem "ol" none (some "list-items") entries]) :=
  ⟨⟨_, rfl⟩, ⟨_, rfl⟩⟩

/-! ## `MyComponent.jsx`: the state cells and their handlers -/

namespace MyComponentJsx

/-- C3, as stated, fails: after `2 ^ 53 + 1` invocations from the initial state
`age` is `2 ^ 54`, not twice the number of invocations, because the double
`2 ^ 54 + 2` does not exist and the sum rounds back to `2 ^ 54`. -/
theorem incrementAge_stops_at_pow54 :
    ((invoke Rendered.incrementAge)^[2 ^ 53 + 1] initialState).age = 2 ^ 54 ∧
    ((invoke Rendered.incrementAge)^[2 ^ 53 + 1] initialState).age ≠
      2 * ((2 ^ 53 + 1 : Nat) : Int) := by
  have h := iterate_incrementAge_saturated initialState rfl 1
  refine ⟨h, ?_⟩
  rw [h]
  norm_num

/-- C3, amended: `incrementAge` invoked `k` times from the initial state gives
`age = 2 * k` for every `k` up to `2 ^ 53`; from `2 ^ 53` invocations on, `age`
stays at `2 ^ 54`. -/
theorem incrementAge_k_times (k : Nat) (h : k ≤ 2 ^ 53) :
    ((invoke Rendered.incrementAge)^[k] initialState).age = 2 * (k : Int) ∧
    ∀ j : Nat, ((invoke Rendered.incrementAge)^[2 ^ 53 + j] initialState).age = 2 ^ 54 :=
  ⟨iterate_incrementAge_exact initialState rfl k h,
    iterate_incrementAge_saturated initialState rfl⟩

/-- Witness of C3: three invocations give `age = 6`. -/
theorem incrementAge_k_times_witness :
    3 ≤ 2 ^ 53 ∧
    (((invoke Rendered.incrementAge)^[3] initialState).age = 2 * ((3 : Nat) : Int) ∧
      ∀ j : Nat,
        ((invoke Rendered.incrementAge)^[2 ^ 53 + j] initialState).age = 2 ^ 54) :=
  ⟨by norm_num, incrementAge_k_times 3 (by norm_num)⟩

/-- C4: `toggleEmployedStatus` invoked `k` times from cells with
`isEmployed = false` gives `isEmployed = true` exactly when `k` is odd, and two
consecutive toggles give back the value they started from. -/
theorem toggleEmployedStatus_k_times (cells : State) (h : cells.isEmployed = false)
    (k : Nat) :
    (((invoke Rendered.toggleEmployedStatus)^[k] cells).isEmployed = true ↔ k % 2 = 1) ∧
    ∀ st : State,
      (invoke Rendered.toggleEmployedStatus
        (invoke Rendered.toggleEmployedStatus st)).isEmployed = st.isEmployed := by
  refine ⟨?_, ?_⟩
  · rw [iterate_toggle_isEmployed, h]
    simp
  · intro st
    simp [invoke_toggleEmployedStatus]

/-- Witness of C4: three toggles from the initial state. -/
theorem toggleEmployedStatus_k_times_witness :
    initialState.isEmployed = false ∧
    ((((invoke Rendered.toggleEmployedStatus)^[3] initialState).isEmployed = true ↔
        3 % 2 = 1) ∧
      ∀ st : State,
        (invoke Rendered.toggleEmployedStatus
          (invoke Rendered.toggleEmployedStatus st)).isEmployed = st.isEmployed) :=
  ⟨rfl, toggleEmployedStatus_k_times initialState rfl 3⟩

/-- C5: every handler, of whichever render, applied to whichever stored cells
leaves the three cells it does not own as they were: `updateName` may change
only `name`, `incrementAge` only `age`, `toggleEmployedStatus` only
`isEmployed`, `handleTypeChanging` only `typing`; and a dispatched
`toggleEmployedStatus` does change its own cell. -/
theorem handlers_frame (stored : Option State) (cells : State) (event : Event) :
    (((MyComponent stored).updateName cells).age = cells.age ∧
      ((MyComponent stored).updateName cells).isEmployed = cells.isEmployed ∧
      ((MyComponent stored).updateName cells).typing = cells.typing) ∧
    (((MyComponent stored).incrementAge cells).name = cells.name ∧
      ((MyComponent stored).incrementAge cells).isEmployed = cells.isEmployed ∧
      ((MyComponent stored).incrementAge cells).typing = cells.typing) ∧
    (((MyComponent stored).toggleEmployedStatus cells).name = cells.name ∧
      ((MyComponent stored).toggleEmployedStatus cells).age = cells.age ∧
      ((MyComponent stored).toggleEmployedStatus cells).typing = cells.typing) ∧
    (((MyComponent stored).handleTypeChanging event cells).name = cells.name ∧
      ((MyComponent stored).handleTypeChanging event cells).age = cells.age ∧
      ((MyComponent stored).handleTypeChanging event cells).isEmployed = cells.isEmployed) ∧
    (invoke Rendered.toggleEmployedStatus cells).isEmployed ≠ cells.isEmployed := by
  refine ⟨⟨rfl, rfl, rfl⟩, ⟨rfl, rfl, rfl⟩, ⟨rfl, rfl, rfl⟩, ⟨rfl, rfl, rfl⟩, ?_⟩
  rw [invoke_toggleEmployedStatus]
  simp

/-- C6: the mounting render reads `name = "Guest"`, `age = 0`,
`isEmployed = false` and `typing = ""`, and these are the initial cells. -/
theorem initialState_values :
    initialState = { name := "Guest", age := 0, isEmployed := false, typing := "" } ∧
    (MyComponent none).cells =
      { name := "Guest", age := 0, isEmployed := false, typing := "" } :=
  ⟨rfl, rfl⟩

/-- C7: `handleTypeChanging` stores exactly `event.target.value` in `typing`,
whatever the string and whatever the cells held; so after a non-empty sequence
of typing events `typing` is the value of the last one. -/
theorem handleTypeChanging_last_wins (cells : State) (events : List Event)
    (h : events ≠ []) :
    (typeAll events cells).typing = (events.getLast h).target.value ∧
    ∀ (stored : Option State) (event : Event) (st : State),
      ((MyComponent stored).handleTypeChanging event st).typing = event.target.value := by
  refine ⟨?_, fun _ _ _ => rfl⟩
  obtain ⟨init, last, rfl⟩ : ∃ init last, events = init ++ [last] :=
    ⟨events.dropLast, events.getLast h, (List.dropLast_append_getLast h).symm⟩
  rw [typeAll_append_singleton, List.getLast_append_singleton]

/-- Witness of C7: typing `"abc"` and then `""` leaves `""`. -/
theorem handleTypeChanging_last_wins_witness :
    ([{ target := { value := "abc" } }, { target := { value := "" } }] : List Event) ≠ [] ∧
    (typeAll [{ target := { value := "abc" } }, { target := { value := "" } }]
      initialState).typing = "" ∧
    ∀ (stored : Option State) (event : Event) (st : State),
      ((MyComponent stored).handleTypeChanging event st).typing = event.target.value :=
  ⟨by simp, handleTypeChanging_last_wins initialState
    [{ target := { value := "abc" } }, { target := { value := "" } }] (by simp)⟩

/-- C8: from every cells, `updateName` invoked `n ≥ 1` times leaves the same
cells as invoking it once, with `name = "Entue"` whatever `name` was. -/
theorem updateName_idempotent (cells : State) (n : Nat) (h : 1 ≤ n) :
    ((invoke Rendered.updateName)^[n] cells).name = "Entue" ∧
    (invoke Rendered.updateName)^[n] cells = invoke Rendered.updateName cells := by
  obtain ⟨m, rfl⟩ : ∃ m, n = m + 1 := ⟨n - 1, by omega⟩
  rw [iterate_updateName]
  exact ⟨rfl, rfl⟩

/-- Witness of C8: four invocations starting from the name `"Ann"`. -/
theorem updateName_idempotent_witness :
    1 ≤ 4 ∧
    ((invoke Rendered.updateName)^[4]
        { name := "Ann", age := 6, isEmployed := true, typing := "x" }).name = "Entue" ∧
    (invoke Rendered.updateName)^[4]
        { name := "Ann", age := 6, isEmployed := true, typing := "x" } =
      invoke Rendered.updateName
        { name := "Ann", age := 6, isEmployed := true, typing := "x" } :=
  ⟨by decide,
    updateName_idempotent { name := "Ann", age := 6, isEmployed := true, typing := "x" } 4
      (by decide)⟩

/-- C10: the handlers `incrementAge` and `toggleEmployedStatus` of a render
write a value computed from what that render read, whatever the cells hold when
they run, so invoking one twice with no render in between leaves what invoking
it once leaves: `incrementAge` twice leaves the `age + 2` of the rendered age,
`toggleEmployedStatus` twice leaves the negation of the rendered value (not the
rendered value); and for a rendered age with `-2 ^ 53 ≤ age ≤ 2 ^ 53 - 2`,
where `age + 2` is exact, `incrementAge` twice leaves the rendered age plus 2
(not plus 4). -/
theorem handlers_use_rendered_values (rendered : State) :
    (∀ st : State,
      ((MyComponent (some rendered)).incrementAge st).age =
        ((MyComponent (some rendered)).incrementAge rendered).age ∧
      ((MyComponent (some rendered)).toggleEmployedStatus st).isEmployed =
        !rendered.isEmployed) ∧
    incrementAgeTwiceSameRender rendered = invoke Rendered.incrementAge rendered ∧
    (incrementAgeTwiceSameRender rendered).age = jsAdd rendered.age 2 ∧
    (toggleTwiceSameRender rendered).isEmployed = !rendered.isEmployed ∧
    (toggleTwiceSameRender rendered).isEmployed ≠ rendered.isEmployed ∧
    (-2 ^ 53 ≤ rendered.age ∧ rendered.age ≤ 2 ^ 53 - 2 →
      (incrementAgeTwiceSameRender rendered).age = rendered.age + 2 ∧
      (incrementAgeTwiceSameRender rendered).age ≠ rendered.age + 4) := by
  have h2 : (toggleTwiceSameRender rendered).isEmployed = !rendered.isEmployed := rfl
  refine ⟨fun _ => ⟨rfl, rfl⟩, rfl, rfl, h2, ?_, ?_⟩
  · rw [h2]
    simp
  · rintro ⟨hlo, hhi⟩
    have h1 : (incrementAgeTwiceSameRender rendered).age = jsAdd rendered.age 2 := rfl
    have h3 : jsAdd rendered.age 2 = rendered.age + 2 :=
      roundToDouble_of_safe (by omega) (by omega)
    rw [h1, h3]
    exact ⟨rfl, by omega⟩

/-- Witness of C10: the handlers of the render of the initial state, where the
rendered age is 0: twice `incrementAge` leaves 2, not 4. -/
theorem handlers_use_rendered_values_witness :
    (-2 ^ 53 ≤ initialState.age ∧ initialState.age ≤ 2 ^ 53 - 2) ∧
    (incrementAgeTwiceSameRender initialState).age = initialState.age + 2 ∧
    (incrementAgeTwiceSameRender initialState).age ≠ initialState.age + 4 :=
  ⟨⟨by decide, by decide⟩,
    (handlers_use_rendered_values initialState).2.2.2.2.2 ⟨by decide, by decide⟩⟩

end MyComponentJsx
